import Mathlib

/-!
Verification of the EduConnect vanilla-JS single-page-application client
(`src/api.js`, `src/auth.js`, `src/router.js`, `src/ui.js`).

The development shallowly embeds the subsystems the specification talks
about: the HTTP client's `request` error handling, the auth manager's
login flow and state transitions, the router's route table / pattern
matcher / `handleRoute` + `navigate` resolution, and the chat polling
loop (`startChatPolling` / `stopChatPolling`).  Browser effects (history
operations, page renders, timer creation/cancellation, dispatched
events) are made explicit as event traces and timer multisets so that
the spec's temporal statements become statements about those traces.
-/

namespace EduConnect

/-! Route pattern matching (router.js, `matchRoute`).

`matchRoute(pattern, path)` builds a regex from the pattern by replacing
every `:\w+` run with the capture group `([^/]+)`, escaping `/`, and
anchoring with `^...$`.  We embed this at the character level: a pattern
tokenizes into literal characters and named parameters, and matching
follows the regex semantics (a parameter group matches a maximal
non-empty run of non-`/` characters, greedily, with backtracking). -/

/-- JS `\w` word characters: ASCII letters, digits and underscore. -/
def isWordChar (c : Char) : Bool := c.isAlphanum || c = '_'

/-- A compiled pattern token: a literal character, or a `:name` capture
group standing for the regex `([^/]+)`. -/
inductive Tok where
  | lit (c : Char)
  | param (name : String)
deriving DecidableEq, Repr

/-- Fuelled tokenizer worker.  Each recursive call consumes at least one
character, so fuel equal to the pattern length always suffices; the fuel
only makes the recursion structural. -/
def tokenizeF : Nat → List Char → List Tok
  | 0, _ => []
  | Nat.succ f, cs =>
    match cs with
    | [] => []
    | ':' :: c :: rest =>
      if isWordChar c then
        Tok.param (String.mk (c :: rest.takeWhile isWordChar)) ::
          tokenizeF f (rest.dropWhile isWordChar)
      else
        Tok.lit ':' :: tokenizeF f (c :: rest)
    | c :: rest => Tok.lit c :: tokenizeF f rest

/-- Tokenize a route pattern the way `matchRoute` compiles it: every
`:\w+` run becomes a named parameter (name without the colon), all other
characters stay literal. -/
def tokenize (cs : List Char) : List Tok := tokenizeF cs.length cs

/-- Literal-only token lists, used to state matcher lemmas about the
literal portions of patterns. -/
def litToks (cs : List Char) : List Tok := cs.map Tok.lit

/-- Length of the maximal non-`/` prefix of `xs` (the most a `([^/]+)`
group could consume). -/
def noSlashLen (xs : List Char) : Nat :=
  (xs.takeWhile (fun c => c ≠ '/')).length

/-- Candidate splits for a `([^/]+)` group, longest first (regex
greediness): each split is (consumed run, remaining characters), the
consumed run being a non-empty `/`-free prefix of `xs`. -/
def paramSplits (xs : List Char) : List (List Char × List Char) :=
  ((List.range (noSlashLen xs)).reverse).map
    (fun k => (xs.take (k + 1), xs.drop (k + 1)))

/-- Fuelled matcher worker.  Every recursive call strips one token, so
fuel exceeding the token count always suffices; the fuel only makes the
recursion structural. -/
def matchToksF : Nat → List Tok → List Char → Option (List (String × String))
  | 0, _, _ => none
  | Nat.succ f, ts, xs =>
    match ts, xs with
    | [], xs => if xs = [] then some [] else none
    | Tok.lit _ :: _, [] => none
    | Tok.lit c :: ts, x :: xs => if x = c then matchToksF f ts xs else none
    | Tok.param n :: ts, xs =>
      (paramSplits xs).findSome? fun pr =>
        (matchToksF f ts pr.2).map fun ps => (n, String.mk pr.1) :: ps

/-- Anchored regex matching of a token list against a path, producing
the captured parameters in order.  Literals must match exactly; a
parameter tries the longest candidate run first and backtracks, exactly
like the greedy `([^/]+)` group of the compiled regex. -/
def matchToks (ts : List Tok) (xs : List Char) : Option (List (String × String)) :=
  matchToksF (ts.length + 1) ts xs

/-- Model of `Router.matchRoute(pattern, path)`: `null` (here `none`) when the
compiled regex does not match, otherwise the extracted parameters. -/
def matchRoute (pattern path : String) : Option (List (String × String)) :=
  matchToks (tokenize pattern.data) path.data

/-! Route table and `findRoute` (router.js, `setupRoutes` / `findRoute`). -/

/-- Which render handler a route definition carries. -/
inductive RTag where
  | root | login | register | dashboard | group
deriving DecidableEq, Repr

/-- A route definition as stored in `this.routes`:
`requiresAuth`, optional `redirectIfAuth` target, and its handler. -/
structure RouteInfo where
  requiresAuth : Bool
  redirectIfAuth : Option String
  tag : RTag
deriving DecidableEq, Repr

/-- The application route table (`setupRoutes`), in insertion order of
the `Map`. -/
def appRoutes : List (String × RouteInfo) :=
  [ ("/", ⟨false, none, RTag.root⟩),
    ("/login", ⟨false, some "/dashboard", RTag.login⟩),
    ("/register", ⟨false, some "/dashboard", RTag.register⟩),
    ("/dashboard", ⟨true, none, RTag.dashboard⟩),
    ("/group/:id", ⟨true, none, RTag.group⟩) ]

/-- Model of `this.routes.has(path)` / `this.routes.get(path)`: exact string
lookup in `Map` insertion order. -/
def lookupRoute : List (String × RouteInfo) → String → Option RouteInfo
  | [], _ => none
  | (k, r) :: rest, p => if p = k then some r else lookupRoute rest p

/-- The pattern-matching loop of `findRoute`: first pattern (in
declaration order) whose `matchRoute` succeeds wins. -/
def firstPatternMatch :
    List (String × RouteInfo) → String → Option (RouteInfo × List (String × String))
  | [], _ => none
  | (pat, r) :: rest, p =>
    match matchRoute pat p with
    | some ps => some (r, ps)
    | none => firstPatternMatch rest p

/-- Model of `Router.findRoute(path)`: exact match first (empty params), then the
pattern loop; `null` (`none`) if nothing matches. -/
def findRoute (routes : List (String × RouteInfo)) (path : String) :
    Option (RouteInfo × List (String × String)) :=
  match lookupRoute routes path with
  | some r => some (r, [])
  | none => firstPatternMatch routes path

/-! Spec-side description of matching (for claim C2).

Transliterated from the spec's words: matching tries a literal exact
match against the route table's keys first (yielding empty parameters),
then patterns in declaration order where `:name` matches exactly one
non-empty path segment containing no slash.  On this table the only
parameterized pattern is `/group/:id`, so the spec-side description is
the closed form below. -/

/-- The `id` parameter of `/group/:id` under the spec's matching rule:
defined exactly when the path is `/group/` followed by one non-empty
slash-free segment. -/
def groupSuffix (path : String) : Option String :=
  let rest := path.data.drop 7
  if path.data.take 7 = "/group/".data ∧ rest ≠ [] ∧ rest.all (fun c => c ≠ '/')
  then some (String.mk rest) else none

/-- Spec-side route resolution: literal exact match against the five
table keys first, then the single-segment `:id` pattern of
`/group/:id`, else no match. -/
def findRouteSpec (path : String) : Option (RouteInfo × List (String × String)) :=
  if path = "/" then some (⟨false, none, RTag.root⟩, [])
  else if path = "/login" then some (⟨false, some "/dashboard", RTag.login⟩, [])
  else if path = "/register" then some (⟨false, some "/dashboard", RTag.register⟩, [])
  else if path = "/dashboard" then some (⟨true, none, RTag.dashboard⟩, [])
  else if path = "/group/:id" then some (⟨true, none, RTag.group⟩, [])
  else
    match groupSuffix path with
    | some seg => some (⟨true, none, RTag.group⟩, [("id", seg)])
    | none => none

/-! Chat polling loop (ui.js, `startChatPolling` / `stopChatPolling`).

The timer world makes `setInterval` / `clearInterval` explicit: `active`
is the list of live interval timers (id paired with the group they poll
for) and `nextId` the next fresh timer id. -/

/-- UIManager polling state: `this.chatPolling` (the interval handle),
`this.currentGroupId`, together with the host's live interval timers. -/
structure PollState where
  chatPolling : Option Nat
  currentGroupId : Option String
  nextId : Nat
  active : List (Nat × String)
deriving DecidableEq, Repr

/-- Polling state at `UIManager` construction: no handle, no group, no
live timers. -/
def PollState.initial : PollState := ⟨none, none, 0, []⟩

/-- Model of `UIManager.stopChatPolling()`: if a handle is present, clear
that interval and null the handle; `currentGroupId` is left as is. -/
def stopChatPolling (s : PollState) : PollState :=
  match s.chatPolling with
  | some id =>
    { s with chatPolling := none, active := s.active.filter (fun p => p.1 ≠ id) }
  | none => s

/-- Model of `UIManager.startChatPolling(groupId)`: stop any existing
session, record the group id, then create a fresh interval timer. -/
def startChatPolling (s : PollState) (g : String) : PollState :=
  let s' := stopChatPolling s
  { s' with currentGroupId := some g, chatPolling := some s'.nextId,
            nextId := s'.nextId + 1, active := s'.active ++ [(s'.nextId, g)] }

/-- An externally invoked polling operation. -/
inductive PollOp where
  | start (g : String)
  | stop
deriving DecidableEq, Repr

/-- Apply one polling operation. -/
def pollStep (s : PollState) : PollOp → PollState
  | PollOp.start g => startChatPolling s g
  | PollOp.stop => stopChatPolling s

/-- Run a sequence of polling operations from the initial state. -/
def runPoll (ops : List PollOp) : PollState :=
  ops.foldl pollStep PollState.initial

/-! Router resolution (router.js, `handleRoute` / `navigate` /
`redirectToDefaultRoute` and the render handlers).

`run` executes one externally triggered call (`handleRoute(path)` or
`navigate(path, replace)`) over the router state, with the auth flag
fixed for the synchronous resolution, returning the new state and the
ordered trace of observable effects.  `fuel` bounds the
`handleRoute`/`navigate` mutual recursion; every redirect chain of the
code settles within the fuel the theorems supply. -/

/-- Observable router effects, in program order: history operations,
page renders, and chat-polling lifecycle calls. -/
inductive Ev where
  | push (p : String)
  | replace (p : String)
  | render404
  | renderLogin
  | renderRegister
  | renderDashboard
  | renderGroup (gid : String)
  | renderErrorPage
  | startPoll (gid : String)
  | stopPoll
deriving DecidableEq, Repr

/-- Router-owned mutable state: `this.currentRoute`,
`this.currentParams`, the browser's current location, and the UI polling
state the group handler drives. -/
structure RouterSt where
  currentRoute : Option String
  currentParams : List (String × String)
  location : String
  poll : PollState
deriving DecidableEq, Repr

/-- An externally triggered router entry point. -/
inductive Call where
  | handle (path : String)
  | nav (path : String) (replaceFlag : Bool)
deriving DecidableEq, Repr

/-- One router call (`handleRoute` or `navigate`), following router.js
line by line.  `isAuth` is `auth.isAuthenticated`, `gOk` whether the
group page's `api.getGroup` fetch succeeds (failure renders the generic
error page instead of mounting the group page). -/
def run (gOk : Bool) : Nat → Bool → RouterSt → Call → RouterSt × List Ev
  | 0, _, s, _ => (s, [])
  | Nat.succ n, isAuth, s, Call.nav path repl =>
    if s.currentRoute = some path then (s, [])
    else
      let ev : Ev := if repl then Ev.replace path else Ev.push path
      let out := run gOk n isAuth { s with location := path } (Call.handle path)
      (out.1, ev :: out.2)
  | Nat.succ n, isAuth, s, Call.handle path =>
    match findRoute appRoutes path with
    | none => (s, [Ev.render404])
    | some (r, ps) =>
      if r.requiresAuth && !isAuth then
        run gOk n isAuth s (Call.nav "/login" true)
      else if r.redirectIfAuth.isSome && isAuth then
        run gOk n isAuth s (Call.nav (r.redirectIfAuth.getD "") true)
      else
        let s1 := { s with currentRoute := some path, currentParams := ps }
        match r.tag with
        | RTag.root =>
          run gOk n isAuth s1 (Call.nav (if isAuth then "/dashboard" else "/login") true)
        | RTag.login => (s1, [Ev.renderLogin])
        | RTag.register => (s1, [Ev.renderRegister])
        | RTag.dashboard => (s1, [Ev.renderDashboard])
        | RTag.group =>
          let gid := (ps.lookup "id").getD ""
          if gOk then
            ({ s1 with poll := startChatPolling s1.poll gid },
             [Ev.renderGroup gid, Ev.startPoll gid])
          else (s1, [Ev.renderErrorPage])

/-! HTTP client (api.js, `ApiClient`).

`request` is modelled as a function of the fetch outcome; its returned
trace records, in program order, the side effects (`setToken`, the
dispatched `auth:logout` event) followed by the single terminal action
(re-raising the error to the caller, or returning the parsed body). -/

/-- Client token state: `this.token` plus the `auth_token` key persisted
in `localStorage`. -/
structure ClientState where
  token : Option String
  storedToken : Option String
deriving DecidableEq, Repr

/-- Model of `ApiClient.setToken(token)`: sets the in-memory token and
writes (or removes) the persisted `auth_token`. -/
def setToken (_s : ClientState) (t : Option String) : ClientState :=
  match t with
  | some tok => { token := some tok, storedToken := some tok }
  | none => { token := none, storedToken := none }

/-- Decidable equality for `Except` values, needed to evaluate auth
event traces on concrete inputs. -/
instance {ε α : Type} [DecidableEq ε] [DecidableEq α] : DecidableEq (Except ε α) := fun a b =>
  match a, b with
  | Except.error e, Except.error e' =>
    if h : e = e' then isTrue (by rw [h]) else isFalse (by intro hc; cases hc; exact h rfl)
  | Except.ok v, Except.ok v' =>
    if h : v = v' then isTrue (by rw [h]) else isFalse (by intro hc; cases hc; exact h rfl)
  | Except.error _, Except.ok _ => isFalse (by intro hc; cases hc)
  | Except.ok _, Except.error _ => isFalse (by intro hc; cases hc)

/-- The body handed back by the response-parsing phase of `request`:
parsed JSON (retaining the `data?.error?.message` it may carry), plain
text for non-JSON content types, or a JSON body whose `response.json()`
parse throws. -/
inductive RespBody where
  | jsonBody (errMsg : Option String)
  | textBody (s : String)
  | jsonInvalid
deriving DecidableEq, Repr

/-- An HTTP response as `request` inspects it: status, status text and
body. -/
structure HttpResp where
  status : Nat
  statusText : String
  body : RespBody
deriving DecidableEq, Repr

/-- Outcome of the `fetch` call itself: a rejection (DNS/connection
failure, no HTTP response) or a delivered response. -/
inductive FetchOutcome where
  | netFail (msg : String)
  | got (r : HttpResp)
deriving DecidableEq, Repr

/-- The error object `request` propagates: `status` is absent for
network-level and body-parse failures. -/
structure ApiErr where
  status : Option Nat
  message : String
deriving DecidableEq, Repr

/-- Side effects and terminal actions of one `request` call, in program
order. -/
inductive Act where
  | setTok (t : Option String)
  | emitAuthLogout
  | raiseErr (e : ApiErr)
  | retData (b : RespBody)
deriving DecidableEq, Repr

/-- JS truthiness of `response.ok`: status in the 200-299 range. -/
def respOk (status : Nat) : Bool := decide (200 ≤ status ∧ status < 300)

/-- The error message `request` builds for a non-ok response:
`data?.error?.message` when the parsed body carries one, else the
HTTP status fallback. -/
def errMsgOf (b : RespBody) (status : Nat) (statusText : String) : String :=
  match b with
  | RespBody.jsonBody (some m) => m
  | _ => "HTTP " ++ toString status ++ ": " ++ statusText

/-- The `catch` block of `request`: on a caught error whose `status` is
401, clear the stored token and dispatch `auth:logout` before re-raising;
any other error is re-raised as is. -/
def catchHandler (cs : ClientState) (e : ApiErr) : ClientState × List Act :=
  if e.status = some 401 then
    (setToken cs none, [Act.setTok none, Act.emitAuthLogout, Act.raiseErr e])
  else (cs, [Act.raiseErr e])

/-- Model of `ApiClient.request`: parse the body per content type (a
failing `response.json()` throws an error that carries no status), raise
an `ApiErr{status,...}` on a non-ok status, return the parsed body on an
ok status; every thrown error passes through the `catch` block. -/
def request (cs : ClientState) (out : FetchOutcome) : ClientState × List Act :=
  match out with
  | FetchOutcome.netFail msg => catchHandler cs { status := none, message := msg }
  | FetchOutcome.got r =>
    match r.body with
    | RespBody.jsonInvalid =>
      catchHandler cs { status := none, message := "Unexpected token in JSON" }
    | b =>
      if respOk r.status then (cs, [Act.retData b])
      else catchHandler cs { status := some r.status,
                             message := errMsgOf b r.status r.statusText }

/-! Auth manager (auth.js, `AuthManager`) and the auth endpoints of
api.js (`ApiService.login` / `register` / `getProfile`).

The login/register flows are modelled as functions of the structural
shape of the endpoint's resolved value: either the error thrown by
`client.post`, or a `{success, data?: {user?, token?}}` body, with
`none` standing for an absent field. -/

/-- The user object the auth endpoints return. -/
structure User where
  id : Nat
  name : String
deriving DecidableEq, Repr

/-- The `data` object of an auth response; either field may be absent. -/
structure RespData where
  user : Option User
  token : Option String
deriving DecidableEq, Repr

/-- A structurally arbitrary auth endpoint response body:
`{success, data?}` where `data` itself may be absent. -/
structure LoginResponse where
  success : Bool
  data : Option RespData
deriving DecidableEq, Repr

/-- What a failed login/register surfaces to its caller: the `ApiErr`
thrown by `client.post` propagated unchanged, a JS `TypeError` from
reading a property of an absent `data`, or the
`Error('Resposta inválida do servidor')` protocol error. -/
inductive LoginErr where
  | api (e : ApiErr)
  | typeErr
  | protocolErr
deriving DecidableEq, Repr

/-- Auth manager state: the API client's token state plus
`this.user`, `this.isAuthenticated`, `this.isLoading`. -/
structure AuthSt where
  client : ClientState
  user : Option User
  isAuthenticated : Bool
  isLoading : Bool
deriving DecidableEq, Repr

/-- Model of `AuthManager.setUser(user)`. -/
def setUser (st : AuthSt) (u : User) : AuthSt :=
  { st with user := some u, isAuthenticated := true }

/-- Model of `AuthManager.clearAuth()`: clears user, authentication flag
and the client token (including the persisted one). -/
def clearAuth (st : AuthSt) : AuthSt :=
  { st with user := none, isAuthenticated := false,
            client := setToken st.client none }

/-- Model of `ApiService.login` (api.js): on `response.success &&
response.data.token` store the token; accessing `.token` of an absent
`data` throws a `TypeError`; the response is returned unchanged.
`ApiService.register` has the identical body. -/
def apiLogin (st : AuthSt) (resp : Except ApiErr LoginResponse) :
    AuthSt × Except LoginErr LoginResponse :=
  match resp with
  | Except.error e => (st, Except.error (LoginErr.api e))
  | Except.ok r =>
    if r.success then
      match r.data with
      | none => (st, Except.error LoginErr.typeErr)
      | some d =>
        match d.token with
        | some t => ({ st with client := setToken st.client (some t) }, Except.ok r)
        | none => (st, Except.ok r)
    else (st, Except.ok r)

/-- Model of `AuthManager.login` (auth.js): forwards to
`ApiService.login`; on `response.success && response.data.user` set the
user, otherwise throw the protocol error; any error is re-thrown
unchanged after the toast side effect. -/
def authLogin (st : AuthSt) (resp : Except ApiErr LoginResponse) :
    AuthSt × Except LoginErr LoginResponse :=
  match apiLogin st resp with
  | (st', Except.error e) => (st', Except.error e)
  | (st', Except.ok r) =>
    if r.success then
      match r.data with
      | none => (st', Except.error LoginErr.typeErr)
      | some d =>
        match d.user with
        | some u => (setUser st' u, Except.ok r)
        | none => (st', Except.error LoginErr.protocolErr)
    else (st', Except.error LoginErr.protocolErr)

/-- Model of `AuthManager.register`: its body is the same as
`AuthManager.login` with the registration endpoint substituted. -/
def authRegister (st : AuthSt) (resp : Except ApiErr LoginResponse) :
    AuthSt × Except LoginErr LoginResponse :=
  authLogin st resp

/-- Spec-side description of the login flow, organized by the structural
shape of the response: an endpoint error propagates unchanged; a
non-success body is the protocol error; a success body without `data`
throws the type error; otherwise the token is stored when present and
the user, when present, makes the state authenticated, its absence being
the protocol error. -/
def authLoginSpec (st : AuthSt) (resp : Except ApiErr LoginResponse) :
    AuthSt × Except LoginErr LoginResponse :=
  match resp with
  | Except.error e => (st, Except.error (LoginErr.api e))
  | Except.ok r =>
    if r.success then
      match r.data with
      | none => (st, Except.error LoginErr.typeErr)
      | some d =>
        let st' := match d.token with
          | some t => { st with client := setToken st.client (some t) }
          | none => st
        match d.user with
        | some u => (setUser st' u, Except.ok r)
        | none => (st', Except.error LoginErr.protocolErr)
    else (st, Except.error LoginErr.protocolErr)

/-- A profile response body, `{success, data?: {user?}}`, as
`validateToken` inspects it. -/
structure ProfileResp where
  success : Bool
  data : Option (Option User)
deriving DecidableEq, Repr

/-- Model of `AuthManager.validateToken` (its net state effect): set the
user on a structurally valid success, otherwise clear auth — a thrown
`TypeError` on absent `data` lands in the same `clearAuth` catch.  The
`finally` block ends the loading phase. -/
def validateTokenStep (st : AuthSt) (resp : Except ApiErr ProfileResp) : AuthSt :=
  let st' :=
    match resp with
    | Except.error _ => clearAuth st
    | Except.ok r =>
      if r.success then
        match r.data with
        | none => clearAuth st
        | some du =>
          match du with
          | some u => setUser st u
          | none => clearAuth st
      else clearAuth st
  { st' with isLoading := false }

/-- Externally observable events that drive the auth state: resolutions
of `login` / `register` / `validateToken` calls, a user-invoked
`logout`, and the `auth:logout` signal the HTTP client dispatches on a
401. -/
inductive AuthEv where
  | login (resp : Except ApiErr LoginResponse)
  | register (resp : Except ApiErr LoginResponse)
  | logout
  | sessionExpired
  | profile (resp : Except ApiErr ProfileResp)
deriving DecidableEq, Repr

/-- One auth state transition.  `logout` runs `api.logout()` (which
clears the token and dispatches `auth:logout`, whose listener calls
`clearAuth`) followed by `clearAuth` again; the net state effect is
`clearAuth`.  The `auth:logout` listener alone is `clearAuth`. -/
def authStep (st : AuthSt) : AuthEv → AuthSt
  | AuthEv.login resp => (authLogin st resp).1
  | AuthEv.register resp => (authRegister st resp).1
  | AuthEv.logout => clearAuth st
  | AuthEv.sessionExpired => clearAuth st
  | AuthEv.profile resp => validateTokenStep st resp

/-- Auth state right after the constructor and the synchronous part of
`init()`: the persisted token (if any) is loaded into the client, no
user is set, and the manager is loading exactly while a persisted token
is being validated. -/
def AuthSt.start (stored : Option String) : AuthSt :=
  { client := { token := stored, storedToken := stored },
    user := none, isAuthenticated := false, isLoading := stored.isSome }

/-- Run a sequence of auth events from a startup state. -/
def runAuth (stored : Option String) (evs : List AuthEv) : AuthSt :=
  evs.foldl authStep (AuthSt.start stored)

/-! Matcher lemmas: the compiled-regex matcher characterized in terms of
take/drop on the path's characters. -/

/-- Two strings are equal iff their character data is. -/
theorem string_eq_iff_data {p q : String} : p = q ↔ p.data = q.data :=
  ⟨fun h => h ▸ rfl, fun h => by cases p; cases q; exact congrArg String.mk h⟩

/-- The matcher worker ignores fuel beyond the token count. -/
theorem matchToksF_congr :
    ∀ (ts : List Tok) (f g : Nat) (xs : List Char), ts.length < f → ts.length < g →
      matchToksF f ts xs = matchToksF g ts xs := by
  intro ts
  induction ts with
  | nil =>
    intro f g xs hf hg
    match f, g with
    | Nat.succ f, Nat.succ g => rfl
  | cons t tr ih =>
    intro f g xs hf hg
    match f, g with
    | Nat.succ f, Nat.succ g =>
      have hf' : tr.length < f := by simpa using Nat.lt_of_succ_lt_succ hf
      have hg' : tr.length < g := by simpa using Nat.lt_of_succ_lt_succ hg
      cases t with
      | lit c =>
        cases xs with
        | nil => rfl
        | cons x xr =>
          simp only [matchToksF]
          rw [ih f g xr hf' hg']
      | param n =>
        simp only [matchToksF]
        have hfun :
            (fun pr : List Char × List Char =>
              (matchToksF f tr pr.2).map fun ps => (n, String.mk pr.1) :: ps) =
            (fun pr : List Char × List Char =>
              (matchToksF g tr pr.2).map fun ps => (n, String.mk pr.1) :: ps) :=
          funext fun pr => by rw [ih f g pr.2 hf' hg']
        rw [hfun]

/-- The worker at any sufficient fuel agrees with `matchToks`. -/
theorem matchToksF_eq_matchToks (ts : List Tok) (f : Nat) (xs : List Char)
    (hf : ts.length < f) : matchToksF f ts xs = matchToks ts xs :=
  matchToksF_congr ts f (ts.length + 1) xs hf (Nat.lt_succ_self _)

/-- Matching a literal run followed by arbitrary tokens: the literal run
must be consumed exactly, after which matching continues on the rest. -/
theorem matchToks_litToks_append :
    ∀ (cs : List Char) (ts : List Tok) (f : Nat) (xs : List Char),
      (litToks cs ++ ts).length < f →
      matchToksF f (litToks cs ++ ts) xs =
        if xs.take cs.length = cs then matchToks ts (xs.drop cs.length) else none := by
  intro cs
  induction cs with
  | nil =>
    intro ts f xs hf
    simp only [litToks, List.map_nil, List.nil_append] at hf ⊢
    simp only [List.length_nil, List.take_zero, List.drop_zero]
    rw [matchToksF_eq_matchToks ts f xs hf]
    simp
  | cons c cr ih =>
    intro ts f xs hf
    simp only [litToks, List.map_cons, List.cons_append, List.length_cons] at hf ⊢
    match f with
    | Nat.succ f =>
      have hf' : (litToks cr ++ ts).length < f := by
        simp only [litToks] at hf ⊢
        exact Nat.lt_of_succ_lt_succ hf
      cases xs with
      | nil =>
        simp [matchToksF]
      | cons x xr =>
        simp only [matchToksF, List.length_cons, List.take_succ_cons, List.drop_succ_cons]
        by_cases hx : x = c
        · have ih' := ih ts f xr hf'
          simp only [litToks] at ih'
          rw [if_pos hx, ih']
          by_cases ht : xr.take cr.length = cr
          · rw [if_pos ht, if_pos (by rw [hx, ht])]
          · rw [if_neg ht, if_neg (by simp [List.cons.injEq, ht])]
        · rw [if_neg hx, if_neg (by simp [List.cons.injEq, hx])]

/-- Matching a pure literal token list is literal equality of the path
with the pattern. -/
theorem matchToks_litToks (cs xs : List Char) :
    matchToks (litToks cs) xs = if xs = cs then some [] else none := by
  have h := matchToks_litToks_append cs [] ((litToks cs ++ []).length + 1) xs
    (Nat.lt_succ_self _)
  rw [List.append_nil] at h
  rw [matchToks, h]
  by_cases hx : xs = cs
  · subst hx
    simp [matchToks, matchToksF]
  · by_cases ht : xs.take cs.length = cs
    · have hd : xs.drop cs.length ≠ [] := by
        intro h0
        apply hx
        conv_lhs => rw [← List.take_append_drop cs.length xs]
        rw [ht, h0, List.append_nil]
      rw [if_pos ht, if_neg hx]
      simp [matchToks, matchToksF, hd]
    · rw [if_neg ht, if_neg hx]

/-- Matching a single trailing parameter group: the regex `([^/]+)$`
accepts exactly the non-empty slash-free remainders, capturing all of
them. -/
theorem matchToks_param_single (nm : String) (xs : List Char) :
    matchToks [Tok.param nm] xs =
      if xs ≠ [] ∧ xs.all (fun c => c ≠ '/') then some [(nm, String.mk xs)] else none := by
  rw [matchToks]
  simp only [List.length_cons, List.length_nil, matchToksF]
  by_cases hcond : xs ≠ [] ∧ xs.all (fun c => c ≠ '/')
  · obtain ⟨hne, hall⟩ := hcond
    have hts : xs.takeWhile (fun c => c ≠ '/') = xs :=
      List.takeWhile_eq_self_iff.mpr (by simpa using hall)
    have hm : noSlashLen xs = xs.length := by rw [noSlashLen, hts]
    match hx : xs with
    | x :: xr =>
      rw [if_pos (by constructor <;> simp_all)]
      have hm' : noSlashLen (x :: xr) = xr.length + 1 := by
        rw [hm]; simp
      rw [paramSplits, hm', List.range_succ, List.reverse_append]
      simp only [List.reverse_cons, List.reverse_nil, List.nil_append,
        List.singleton_append, List.map_cons]
      rw [List.findSome?_cons]
      have h1 : (x :: xr).take (xr.length + 1) = x :: xr := List.take_length (x :: xr)
      have h2 : (x :: xr).drop (xr.length + 1) = [] := List.drop_length (x :: xr)
      rw [h1, h2]
      simp [matchToksF]
  · rw [if_neg hcond]
    rcases Decidable.not_and_iff_or_not.mp hcond with hne | hall
    · have hx : xs = [] := Decidable.not_not.mp hne
      subst hx
      simp [paramSplits, noSlashLen]
    · have hlt : noSlashLen xs < xs.length := by
        have hle := (List.takeWhile_sublist (l := xs) (fun c => decide (c ≠ '/'))).length_le
        rcases Nat.lt_or_ge (noSlashLen xs) xs.length with h | h
        · exact h
        · exfalso
          have heq : xs.takeWhile (fun c => decide (c ≠ '/')) = xs :=
            (List.takeWhile_sublist (l := xs) _).eq_of_length (Nat.le_antisymm hle h)
          exact hall (by simpa using List.takeWhile_eq_self_iff.mp heq)
      apply List.findSome?_eq_none_iff.mpr
      intro pr hpr
      rw [paramSplits] at hpr
      rcases List.mem_map.mp hpr with ⟨k, hk, hpr'⟩
      have hk' : k < noSlashLen xs := by
        have := List.mem_reverse.mp hk
        exact List.mem_range.mp this
      have hdrop : xs.drop (k + 1) ≠ [] := by
        rw [Ne, List.drop_eq_nil_iff]
        omega
      rw [← hpr']
      simp [matchToksF, hdrop]

/-- A pattern that compiles to literal tokens only matches exactly its
own text, capturing nothing. -/
theorem matchRoute_literal (pat p : String) (htok : tokenize pat.data = litToks pat.data) :
    matchRoute pat p = if p = pat then some [] else none := by
  rw [matchRoute, htok, matchToks_litToks]
  by_cases h : p = pat
  · rw [if_pos (string_eq_iff_data.mp h), if_pos h]
  · rw [if_neg (fun hd => h (string_eq_iff_data.mpr hd)), if_neg h]

/-- Matching the `/group/:id` pattern succeeds exactly on `/group/`
followed by one non-empty slash-free segment, which it captures as
`id`. -/
theorem matchRoute_group_pattern (p : String) :
    matchRoute "/group/:id" p =
      if p.data.take 7 = "/group/".data ∧ p.data.drop 7 ≠ [] ∧
          (p.data.drop 7).all (fun c => c ≠ '/')
      then some [("id", String.mk (p.data.drop 7))] else none := by
  have htok : tokenize "/group/:id".data = litToks "/group/".data ++ [Tok.param "id"] := by
    decide
  have h := matchToks_litToks_append "/group/".data [Tok.param "id"]
    ((litToks "/group/".data ++ [Tok.param "id"]).length + 1) p.data (Nat.lt_succ_self _)
  have hlen : ("/group/".data).length = 7 := by decide
  rw [matchRoute, htok, matchToks, h, hlen]
  by_cases hA : p.data.take 7 = "/group/".data
  · rw [if_pos hA, matchToks_param_single]
    by_cases hBC : p.data.drop 7 ≠ [] ∧ (p.data.drop 7).all (fun c => c ≠ '/')
    · rw [if_pos hBC, if_pos ⟨hA, hBC⟩]
    · rw [if_neg hBC, if_neg (fun hc => hBC ⟨hc.2.1, hc.2.2⟩)]
  · rw [if_neg hA, if_neg (fun hc => hA hc.1)]

/-- C2: route matching is deterministic and first-match-wins.  For every
path, `findRoute` over the application route table agrees with the
spec-side description `findRouteSpec`: a literal exact match against the
table keys is tried first (yielding empty parameters), then patterns in
declaration order, where the single `:id` parameter of `/group/:id`
matches exactly one non-empty path segment containing no slash; the
first match determines the returned route and parameters. -/
theorem findRoute_eq_findRouteSpec (path : String) :
    findRoute appRoutes path = findRouteSpec path := by
  by_cases h1 : path = "/"
  · subst h1; decide
  by_cases h2 : path = "/login"
  · subst h2; decide
  by_cases h3 : path = "/register"
  · subst h3; decide
  by_cases h4 : path = "/dashboard"
  · subst h4; decide
  by_cases h5 : path = "/group/:id"
  · subst h5; decide
  have m1 : matchRoute "/" path = none := by
    rw [matchRoute_literal _ _ (by decide)]; exact if_neg h1
  have m2 : matchRoute "/login" path = none := by
    rw [matchRoute_literal _ _ (by decide)]; exact if_neg h2
  have m3 : matchRoute "/register" path = none := by
    rw [matchRoute_literal _ _ (by decide)]; exact if_neg h3
  have m4 : matchRoute "/dashboard" path = none := by
    rw [matchRoute_literal _ _ (by decide)]; exact if_neg h4
  have m5 := matchRoute_group_pattern path
  simp only [findRoute, findRouteSpec, appRoutes, lookupRoute, firstPatternMatch,
    if_neg h1, if_neg h2, if_neg h3, if_neg h4, if_neg h5, m1, m2, m3, m4, m5,
    groupSuffix]
  split_ifs <;> rfl

/-! Router resolution lemmas: one-step unfoldings of `run`, shared by
the route-resolution theorems. -/

/-- Unfolding of a `navigate(path, replace)` call at positive fuel. -/
theorem run_nav_eq (gOk : Bool) (n : Nat) (isAuth : Bool) (s : RouterSt)
    (path : String) (repl : Bool) :
    run gOk (n + 1) isAuth s (Call.nav path repl) =
      if s.currentRoute = some path then (s, [])
      else
        ((run gOk n isAuth { s with location := path } (Call.handle path)).1,
         (if repl then Ev.replace path else Ev.push path) ::
           (run gOk n isAuth { s with location := path } (Call.handle path)).2) := rfl

/-- Unfolding of a `handleRoute(path)` call at positive fuel when the
route table resolves the path. -/
theorem run_handle_some (gOk : Bool) (n : Nat) (isAuth : Bool) (s : RouterSt)
    (path : String) (r : RouteInfo) (ps : List (String × String))
    (hfind : findRoute appRoutes path = some (r, ps)) :
    run gOk (n + 1) isAuth s (Call.handle path) =
      if r.requiresAuth && !isAuth then run gOk n isAuth s (Call.nav "/login" true)
      else if r.redirectIfAuth.isSome && isAuth then
        run gOk n isAuth s (Call.nav (r.redirectIfAuth.getD "") true)
      else
        let s1 : RouterSt := { s with currentRoute := some path, currentParams := ps }
        match r.tag with
        | RTag.root =>
          run gOk n isAuth s1 (Call.nav (if isAuth then "/dashboard" else "/login") true)
        | RTag.login => (s1, [Ev.renderLogin])
        | RTag.register => (s1, [Ev.renderRegister])
        | RTag.dashboard => (s1, [Ev.renderDashboard])
        | RTag.group =>
          let gid := (ps.lookup "id").getD ""
          if gOk then
            ({ s1 with poll := startChatPolling s1.poll gid },
             [Ev.renderGroup gid, Ev.startPoll gid])
          else (s1, [Ev.renderErrorPage]) := by
  show (match findRoute appRoutes path with
    | none => (s, [Ev.render404])
    | some (r, ps) =>
      if r.requiresAuth && !isAuth then run gOk n isAuth s (Call.nav "/login" true)
      else if r.redirectIfAuth.isSome && isAuth then
        run gOk n isAuth s (Call.nav (r.redirectIfAuth.getD "") true)
      else
        let s1 : RouterSt := { s with currentRoute := some path, currentParams := ps }
        match r.tag with
        | RTag.root =>
          run gOk n isAuth s1 (Call.nav (if isAuth then "/dashboard" else "/login") true)
        | RTag.login => (s1, [Ev.renderLogin])
        | RTag.register => (s1, [Ev.renderRegister])
        | RTag.dashboard => (s1, [Ev.renderDashboard])
        | RTag.group =>
          let gid := (ps.lookup "id").getD ""
          if gOk then
            ({ s1 with poll := startChatPolling s1.poll gid },
             [Ev.renderGroup gid, Ev.startPoll gid])
          else (s1, [Ev.renderErrorPage])) = _
  rw [hfind]

/-- C1 (amended): resolving any route whose definition has
`requiresAuth` while the auth state is anonymous never invokes that
route's render handler; the router issues `navigate('/login', replace)`,
which performs a history replace to `/login` and renders the login page
whenever the current route is not already `/login`, and is a complete
no-op (no history operation at all) when the current route is already
`/login`. -/
theorem protected_route_anonymous (gOk : Bool) (n : Nat) (s : RouterSt)
    (path : String) (r : RouteInfo) (ps : List (String × String))
    (hfind : findRoute appRoutes path = some (r, ps))
    (hauth : r.requiresAuth = true) :
    run gOk (n + 3) false s (Call.handle path) =
      if s.currentRoute = some "/login" then (s, [])
      else
        ({ s with
            currentRoute := some "/login", currentParams := [],
            location := "/login" },
         [Ev.replace "/login", Ev.renderLogin]) := by
  have h1 : run gOk (n + 3) false s (Call.handle path) =
      run gOk (n + 2) false s (Call.nav "/login" true) := by
    rw [run_handle_some gOk (n + 2) false s path r ps hfind, hauth]
    simp
  rw [h1, run_nav_eq]
  by_cases hc : s.currentRoute = some "/login"
  · rw [if_pos hc, if_pos hc]
  · rw [if_neg hc, if_neg hc]
    have hlog : findRoute appRoutes "/login" =
        some (⟨false, some "/dashboard", RTag.login⟩, []) := by decide
    rw [run_handle_some gOk n false _ "/login" _ _ hlog]
    simp

/-- Witness for C1's theorem at a concrete input: resolving the
protected `/dashboard` route from a fresh anonymous state replaces the
history entry with `/login` and renders only the login page. -/
theorem protected_route_anonymous_witness :
    run true 3 false ⟨none, [], "/", PollState.initial⟩ (Call.handle "/dashboard") =
      (⟨some "/login", [], "/login", PollState.initial⟩,
       [Ev.replace "/login", Ev.renderLogin]) := by
  have h := protected_route_anonymous true 0 ⟨none, [], "/", PollState.initial⟩
    "/dashboard" ⟨true, none, RTag.dashboard⟩ [] (by decide) rfl
  simpa using h

/-- Counterexample to C1 as stated: with the login page current
(`currentRoute = '/login'`) and an anonymous session, `navigate`-ing to
the protected `/dashboard` pushes `/dashboard` onto the history and then
the inner `navigate('/login', replace)` early-returns because
`'/login' === this.currentRoute` — no history replace to `/login` ever
happens, and the address bar is left on the protected path.  The full
effect trace is exactly one `push '/dashboard'`. -/
theorem protected_route_anonymous_counterexample :
    run true 5 false ⟨some "/login", [], "/login", PollState.initial⟩
      (Call.nav "/dashboard" false) =
      (⟨some "/login", [], "/dashboard", PollState.initial⟩, [Ev.push "/dashboard"]) := by
  decide

/-- C6 (refuted by the code): navigating away from a mounted group page
(`/group/g1`, with its polling interval live as timer 0) to `/dashboard`
leaves the `g1` polling timer active and emits no stop-polling call:
`handleRoute` never invokes `ui.stopChatPolling`, and `Router.cleanup`
(which would) has no caller.  The final state retains the live timer
`(0, "g1")` and the trace is only the push and the dashboard render. -/
theorem group_navigation_leaves_polling_active :
    run true 5 true
      ⟨some "/group/g1", [("id", "g1")], "/group/g1", ⟨some 0, some "g1", 1, [(0, "g1")]⟩⟩
      (Call.nav "/dashboard" false) =
      (⟨some "/dashboard", [], "/dashboard", ⟨some 0, some "g1", 1, [(0, "g1")]⟩⟩,
       [Ev.push "/dashboard", Ev.renderDashboard]) := by
  decide

/-- C10: resolving the root path `/` renders nothing of its own; it
always performs a history replace — to `/dashboard` when authenticated
and to `/login` when anonymous — and the only render in the trace is the
redirect target's page. -/
theorem root_route_always_redirects (gOk : Bool) (n : Nat) (isAuth : Bool) (s : RouterSt) :
    run gOk (n + 3) isAuth s (Call.handle "/") =
      if isAuth then
        ({ s with
            currentRoute := some "/dashboard", currentParams := [],
            location := "/dashboard" },
         [Ev.replace "/dashboard", Ev.renderDashboard])
      else
        ({ s with
            currentRoute := some "/login", currentParams := [],
            location := "/login" },
         [Ev.replace "/login", Ev.renderLogin]) := by
  have hroot : findRoute appRoutes "/" = some (⟨false, none, RTag.root⟩, []) := by decide
  rw [run_handle_some gOk (n + 2) isAuth s "/" _ _ hroot]
  cases isAuth with
  | true =>
    simp only [Bool.and_false, Bool.not_true, Bool.false_and, Option.isSome_none,
      Bool.false_eq_true, if_false, if_true]
    have hdash : findRoute appRoutes "/dashboard" =
        some (⟨true, none, RTag.dashboard⟩, []) := by decide
    rw [run_nav_eq]
    rw [if_neg (by simp), run_handle_some gOk n true _ "/dashboard" _ _ hdash]
    simp
  | false =>
    simp only [Bool.and_true, Bool.not_false, Bool.and_false, Option.isSome_none,
      Bool.false_eq_true, if_false]
    have hlog : findRoute appRoutes "/login" =
        some (⟨false, some "/dashboard", RTag.login⟩, []) := by decide
    rw [run_nav_eq]
    rw [if_neg (by simp), run_handle_some gOk n false _ "/login" _ _ hlog]
    simp

/-! Polling-loop lemmas (claims C7 and C8). -/

/-- The polling invariant: when no interval handle is held there are no
live timers, and when a handle is held the live timers are exactly that
one timer, scoped to some group. -/
def PollInv (s : PollState) : Prop :=
  (s.chatPolling = none → s.active = []) ∧
  (∀ id, s.chatPolling = some id → ∃ g, s.active = [(id, g)])

/-- The initial polling state satisfies the invariant. -/
theorem pollInv_initial : PollInv PollState.initial :=
  ⟨fun _ => rfl, fun id h => by cases h⟩

/-- Stopping always drops the held timer, leaving no live timers. -/
theorem stopChatPolling_active (s : PollState) (h : PollInv s) :
    (stopChatPolling s).chatPolling = none ∧ (stopChatPolling s).active = [] := by
  cases hc : s.chatPolling with
  | none => simp [stopChatPolling, hc, h.1 hc]
  | some id =>
    obtain ⟨g, hg⟩ := h.2 id hc
    simp [stopChatPolling, hc, hg]

/-- `stopChatPolling` preserves the invariant. -/
theorem pollInv_stop (s : PollState) (h : PollInv s) : PollInv (stopChatPolling s) := by
  obtain ⟨h1, h2⟩ := stopChatPolling_active s h
  exact ⟨fun _ => h2, fun id hid => by rw [h1] at hid; cases hid⟩

/-- `startChatPolling` preserves the invariant: afterwards exactly the
fresh timer, scoped to the new group, is live. -/
theorem pollInv_start (s : PollState) (g : String) (h : PollInv s) :
    PollInv (startChatPolling s g) := by
  obtain ⟨h1, h2⟩ := stopChatPolling_active s h
  constructor
  · intro hnone
    simp [startChatPolling] at hnone
  · intro id hid
    simp only [startChatPolling] at hid ⊢
    refine ⟨g, ?_⟩
    rw [h2]
    simp only [List.nil_append]
    injection hid with hid
    rw [hid]

/-- Every reachable polling state satisfies the invariant. -/
theorem pollInv_foldl (ops : List PollOp) :
    ∀ s : PollState, PollInv s → PollInv (ops.foldl pollStep s) := by
  induction ops with
  | nil => exact fun s h => h
  | cons op ops ih =>
    intro s h
    refine ih (pollStep s op) ?_
    cases op with
    | start g => exact pollInv_start s g h
    | stop => exact pollInv_stop s h

/-- C7: at most one polling session is ever active.  After any operation
sequence the live-timer list has length at most one, and appending a
`start g` leaves exactly one live timer, scoped to `g` — in particular
`start('g1')` then `start('g2')` leaves one timer scoped to `g2`, and
`start(g)` twice leaves one timer scoped to `g`. -/
theorem polling_at_most_one_session (ops : List PollOp) :
    (runPoll ops).active.length ≤ 1 ∧
      ∀ g, ∃ id, (runPoll (ops ++ [PollOp.start g])).active = [(id, g)] := by
  have hinv : PollInv (runPoll ops) := pollInv_foldl ops PollState.initial pollInv_initial
  constructor
  · cases hc : (runPoll ops).chatPolling with
    | none => rw [hinv.1 hc]; simp
    | some id =>
      obtain ⟨g, hg⟩ := hinv.2 id hc
      rw [hg]; simp
  · intro g
    have happ : runPoll (ops ++ [PollOp.start g]) =
        startChatPolling (runPoll ops) g := by
      rw [runPoll, List.foldl_append]
      rfl
    obtain ⟨_, h2⟩ := stopChatPolling_active (runPoll ops) hinv
    refine ⟨(stopChatPolling (runPoll ops)).nextId, ?_⟩
    rw [happ]
    simp only [startChatPolling, h2, List.nil_append]

/-- C8 (amended): `stopChatPolling` is idempotent — the second of two
consecutive calls is a no-op — it cancels the interval and clears the
interval handle; but it leaves `currentGroupId` untouched (the group id
is only ever overwritten by the next `startChatPolling`). -/
theorem stopChatPolling_idempotent (s : PollState) :
    stopChatPolling (stopChatPolling s) = stopChatPolling s ∧
      (stopChatPolling s).chatPolling = none ∧
      (stopChatPolling s).currentGroupId = s.currentGroupId := by
  cases hc : s.chatPolling <;> simp [stopChatPolling, hc]

/-- Counterexample to C8 as stated: `stop()` does not clear all polling
state — after `start('g1')` then `stop()`, the group id is still
`'g1'` (the claim's "clears ... group id" would require `none`). -/
theorem stop_keeps_group_counterexample :
    (runPoll [PollOp.start "g1", PollOp.stop]).currentGroupId = some "g1" := by
  decide

/-! HTTP client lemmas (claims C4 and C9). -/

/-- C9: a network-level failure (the `fetch` call itself rejecting,
without an HTTP response) propagates to the caller as an error carrying
no status, with no token change and no other side effect. -/
theorem request_network_failure (cs : ClientState) (msg : String) :
    request cs (FetchOutcome.netFail msg) = (cs, [Act.raiseErr ⟨none, msg⟩]) := by
  simp [request, catchHandler]

/-- C4 (amended): for every request receiving an HTTP 401 response whose
body parsing does not itself throw, the client clears the stored token
(both the in-memory token and the persisted `auth_token`) and dispatches
the `auth:logout` session-expiry signal (the event the auth manager
subscribes to), and both happen, in that order, before the error is
raised to the caller. -/
theorem request_401_clears_token (cs : ClientState) (r : HttpResp)
    (h401 : r.status = 401) (hbody : r.body ≠ RespBody.jsonInvalid) :
    request cs (FetchOutcome.got r) =
      (⟨none, none⟩,
       [Act.setTok none, Act.emitAuthLogout,
        Act.raiseErr ⟨some 401, errMsgOf r.body r.status r.statusText⟩]) := by
  obtain ⟨st, stx, b⟩ := r
  simp only at h401
  subst h401
  cases b with
  | jsonInvalid => exact absurd rfl hbody
  | jsonBody m => simp [request, respOk, catchHandler, setToken]
  | textBody s => simp [request, respOk, catchHandler, setToken]

/-- Witness for C4's theorem at a concrete input: a 401 with a parsed
JSON error body clears both token copies and emits the signal before the
error is raised. -/
theorem request_401_clears_token_witness :
    request ⟨some "t", some "t"⟩
      (FetchOutcome.got ⟨401, "Unauthorized", RespBody.jsonBody (some "expired")⟩) =
      (⟨none, none⟩,
       [Act.setTok none, Act.emitAuthLogout, Act.raiseErr ⟨some 401, "expired"⟩]) := by
  have h := request_401_clears_token ⟨some "t", some "t"⟩
    ⟨401, "Unauthorized", RespBody.jsonBody (some "expired")⟩ rfl (by decide)
  simpa [errMsgOf] using h

/-- Counterexample to C4 as stated: a 401 response whose JSON body fails
to parse makes `response.json()` throw an error that carries no
`status`, so the `catch` block's 401 test misses — the token survives
and no session-expiry signal is emitted. -/
theorem request_401_invalid_json_counterexample :
    request ⟨some "t", some "t"⟩
      (FetchOutcome.got ⟨401, "Unauthorized", RespBody.jsonInvalid⟩) =
      (⟨some "t", some "t"⟩,
       [Act.raiseErr ⟨none, "Unexpected token in JSON"⟩]) := by
  decide

/-! Auth manager lemmas (claims C3 and C5). -/

/-- C3 (amended): the login flow, characterized by the structural shape
of the response.  An endpoint error propagates to the caller unchanged;
a non-success body fails with the protocol error; a success body with no
`data` fails with a type error; otherwise a token, when present, is
stored, and a present user makes the state authenticated while a missing
user fails with the protocol error — a missing token alone is accepted
and still transitions to authenticated. -/
theorem authLogin_eq_spec (st : AuthSt) (resp : Except ApiErr LoginResponse) :
    authLogin st resp = authLoginSpec st resp := by
  rcases resp with e | ⟨succ, dat⟩
  · rfl
  · cases succ
    · rcases dat with _ | d <;> rfl
    · rcases dat with _ | ⟨u, t⟩
      · rfl
      · rcases u with _ | u <;> rcases t with _ | t <;> rfl

/-- Counterexample to C3 as stated: a success response carrying a user
but no token is "malformed" in the claim's sense, yet `login` does not
fail with a `ProtocolError` — it returns the response and transitions to
authenticated, with no token stored anywhere. -/
theorem login_missing_token_counterexample :
    authLogin (AuthSt.start none)
      (Except.ok ⟨true, some ⟨some ⟨1, "a"⟩, none⟩⟩) =
      (⟨⟨none, none⟩, some ⟨1, "a"⟩, true, false⟩,
       Except.ok ⟨true, some ⟨some ⟨1, "a"⟩, none⟩⟩) := by
  decide

/-- One auth transition preserves the flag/user agreement. -/
theorem authStep_preserves_inv (s : AuthSt) (e : AuthEv)
    (hs : s.isAuthenticated = s.user.isSome) :
    (authStep s e).isAuthenticated = (authStep s e).user.isSome := by
  cases e with
  | login resp =>
    rcases resp with e | ⟨succ, dat⟩
    · exact hs
    · cases succ
      · rcases dat with _ | d <;> exact hs
      · rcases dat with _ | ⟨u, t⟩
        · exact hs
        · rcases u with _ | u <;> rcases t with _ | t
          · exact hs
          · exact hs
          · rfl
          · rfl
  | register resp =>
    rcases resp with e | ⟨succ, dat⟩
    · exact hs
    · cases succ
      · rcases dat with _ | d <;> exact hs
      · rcases dat with _ | ⟨u, t⟩
        · exact hs
        · rcases u with _ | u <;> rcases t with _ | t
          · exact hs
          · exact hs
          · rfl
          · rfl
  | logout => rfl
  | sessionExpired => rfl
  | profile resp =>
    rcases resp with e | ⟨succ, dat⟩
    · rfl
    · cases succ
      · rcases dat with _ | du <;> rfl
      · rcases dat with _ | du
        · rfl
        · rcases du with _ | u <;> rfl

/-- C5 (amended): in every reachable auth state, `isAuthenticated` holds
exactly when a non-null user is held.  The client tracks no token
expiry, and (see the counterexample) being authenticated does not imply
a token is held — the token is managed separately by the API client. -/
theorem auth_isAuthenticated_iff_user (stored : Option String) (evs : List AuthEv) :
    (runAuth stored evs).isAuthenticated = (runAuth stored evs).user.isSome := by
  suffices h : ∀ s : AuthSt, s.isAuthenticated = s.user.isSome →
      ∀ l : List AuthEv, (l.foldl authStep s).isAuthenticated =
        (l.foldl authStep s).user.isSome by
    exact h _ (by cases stored <;> rfl) evs
  intro s hs l
  induction l generalizing s with
  | nil => exact hs
  | cons e l ih => exact ih (authStep s e) (authStep_preserves_inv s e hs)

/-- Counterexample to C5 as stated: the state reached by a login whose
success response carries a user but no token is authenticated while
holding no token at all, so "authenticated iff a non-null session with a
non-expired token is held" fails in a reachable state. -/
theorem auth_invariant_counterexample :
    (runAuth none [AuthEv.login (Except.ok ⟨true, some ⟨some ⟨1, "a"⟩, none⟩⟩)]).isAuthenticated
        = true ∧
      (runAuth none
        [AuthEv.login (Except.ok ⟨true, some ⟨some ⟨1, "a"⟩, none⟩⟩)]).client.token = none := by
  decide

end EduConnect
